import Mathlib

/-!
Verification development for a webhook relay (single Python source file
app.py).  The relay receives order-update webhooks, locates the chat
message that announced the order, and reflects payment / fulfillment /
stock status changes as emoji reactions on that message.

The shallow embedding below translates the pure logic of app.py into Lean:
string and regex processing over ASCII text, the three reaction-mapping
functions, the response parsing of the stock-metafield query, and the
webhook handler as an explicit state-transition function on the in-memory
tracking map.  Outbound HTTP calls (chat history fetch, stock-metafield
query) are parameters of the transition: the history fetch is a function
from channel id to its fetched page, and the stock fetch is the result of
the metadata call (an exception is modelled as an error value).
-/

namespace Imogi

/-! ## Character and string helpers (ASCII fragment of Python semantics) -/

/-- Python regex word character, ASCII fragment: letters, digits, underscore. -/
def isWordChar (c : Char) : Bool := c.isAlphanum || c == '_'

/-- Python whitespace, ASCII fragment: the characters matched by the regex
class backslash-s and stripped by str.strip. -/
def isPySpace (c : Char) : Bool :=
  c == ' ' || c == '\t' || c == '\n' || c == '\r' || c == '\x0b' || c == '\x0c'

/-- Python str.lower, ASCII fragment: lowercase each character. -/
def pyLower (s : String) : String := String.mk (s.data.map Char.toLower)

/-- Python str.strip: remove leading and trailing whitespace. -/
def pyStrip (s : String) : String :=
  String.mk (((s.data.dropWhile isPySpace).reverse.dropWhile isPySpace).reverse)

/-- Python str.replace with target a single hash sign and empty replacement:
removes every occurrence of the hash sign. -/
def removeHash (s : String) : String :=
  String.mk (s.data.filter (fun c => c ≠ '#'))

/-! ## The strict-match regex of app.py, line 30

The pattern is: word boundary, literal st.order, one or more whitespace
characters, an optional hash sign, a captured run of digits, word boundary.
The character classes of the quantified parts are pairwise disjoint, so the
greedy left-to-right matcher below computes exactly the Python regex match
(backtracking can never produce a match where the greedy scan fails). -/

/-- The literal part of the pattern. -/
def stOrderChars : List Char := ['s', 't', '.', 'o', 'r', 'd', 'e', 'r']

/-- Match a literal character list as a prefix, returning the remainder. -/
def litMatch : List Char → List Char → Option (List Char)
  | [], l => some l
  | _ :: _, [] => none
  | p :: ps, c :: cs => if c = p then litMatch ps cs else none

/-- Parse the part of the pattern after the literal: one or more whitespace
characters, an optional hash sign, a nonempty digit run, then a word
boundary.  Returns the captured digit run. -/
def parseTail (l : List Char) : Option String :=
  let sp := l.takeWhile isPySpace
  let rest := l.dropWhile isPySpace
  if sp = [] then none
  else
    let rest2 := match rest with
      | '#' :: r => r
      | r => r
    let ds := rest2.takeWhile Char.isDigit
    let rest3 := rest2.dropWhile Char.isDigit
    if ds = [] then none
    else
      match rest3 with
      | [] => some (String.mk ds)
      | c :: _ => if isWordChar c then none else some (String.mk ds)

/-- Attempt the full pattern at the current position (the literal, then the
tail).  The word boundary in front of the literal is checked by the caller. -/
def matchStOrder (l : List Char) : Option String :=
  match litMatch stOrderChars l with
  | some rest => parseTail rest
  | none => none

/-- Word boundary before the literal: holds at the start of the text or when
the preceding character is not a word character (the first pattern character
is a word character). -/
def boundaryB : Option Char → Bool
  | none => true
  | some p => !isWordChar p

/-- Left-to-right regex search: try the pattern at each position, carrying
the previous character for the boundary check; return the first (leftmost)
successful capture, as re.search does. -/
def reSearchAux : Option Char → List Char → Option String
  | _, [] => none
  | prev, c :: rest =>
    match (if boundaryB prev then matchStOrder (c :: rest) else none) with
    | some d => some d
    | none => reSearchAux (some c) rest

/-- The capture of the pattern attempted at one given position (index into
the remaining list), carrying the previous character; position 0 is the
current position.  Used to state which positions of the text match. -/
def capAux : Option Char → List Char → Nat → Option String
  | prev, l, 0 => if boundaryB prev then matchStOrder l else none
  | _, [], _ + 1 => none
  | _, c :: rest, i + 1 => capAux (some c) rest i

/-- app.py is_new_order_message (lines 27 to 31): false on empty text,
otherwise search the lowercased text for the pattern and compare the first
captured digit run with the order number by string equality. -/
def is_new_order_message (text : String) (order_number : String) : Bool :=
  if text = "" then false
  else
    match reSearchAux none (pyLower text).data with
    | some d => d == order_number
    | none => false

/-! ## Chat message resolution (app.py find_new_order_message, lines 37 to 61) -/

/-- One message of a fetched history page: its timestamp and text. -/
structure SlackMsg where
  ts : String
  text : String
deriving DecidableEq

/-- The decoded response of one history fetch: the ok flag and the list of
messages in the order the API returned them (most recent first). -/
structure ChanResp where
  ok : Bool
  messages : List SlackMsg
deriving DecidableEq

/-- app.py lines 15 to 18: the fixed list of channels to search, in priority
order. -/
def CHANNELS_TO_SEARCH : List String := ["C0A02M2VCTB", "C0A068PHZMY"]

/-- Scan a list of messages, returning the timestamp of the first one whose
text matches the order number. -/
def scanMsgs (n : String) : List SlackMsg → Option String
  | [] => none
  | m :: rest => if is_new_order_message m.text n then some m.ts else scanMsgs n rest

/-- The channel loop of find_new_order_message: for each channel, fetch its
page; skip the channel when the response is not ok; otherwise scan the
REVERSED page (as the source does with reversed on the fetched list) and
return the first matching timestamp with the channel id. -/
def goChannels (hist : String → ChanResp) (n : String) : List String → Option (String × String)
  | [] => none
  | c :: cs =>
    let d := hist c
    if d.ok then
      match scanMsgs n d.messages.reverse with
      | some ts => some (ts, c)
      | none => goChannels hist n cs
    else goChannels hist n cs

/-- app.py find_new_order_message: search the configured channels in order;
the history fetch is abstracted as a function from channel id to its decoded
page.  Returns the matched timestamp and channel, or none. -/
def find_new_order_message (hist : String → ChanResp) (n : String) : Option (String × String) :=
  goChannels hist n CHANNELS_TO_SEARCH

/-- Modelled from the spec: scan each fetched page from most recent to
oldest.  The history API delivers pages most recent first, so this scans the
page in its delivered order (no reversal).  Used only to compare the code
against the spec sentence about scan direction. -/
def goChannelsSpec (hist : String → ChanResp) (n : String) : List String → Option (String × String)
  | [] => none
  | c :: cs =>
    let d := hist c
    if d.ok then
      match scanMsgs n d.messages with
      | some ts => some (ts, c)
      | none => goChannelsSpec hist n cs
    else goChannelsSpec hist n cs

/-- Modelled from the spec: chat message resolution scanning each page most
recent to oldest (see goChannelsSpec). -/
def find_new_order_message_spec (hist : String → ChanResp) (n : String) : Option (String × String) :=
  goChannelsSpec hist n CHANNELS_TO_SEARCH

/-- The timestamp ts is the first hit of a scan of the list l: some message
with that timestamp matches and every message before it does not. -/
def firstScanHit (n : String) (l : List SlackMsg) (ts : String) : Prop :=
  ∃ pre m post, l = pre ++ m :: post ∧ m.ts = ts ∧
    is_new_order_message m.text n = true ∧
    ∀ m2 ∈ pre, is_new_order_message m2.text n = false

/-- A history environment in which every fetch fails (ok false). -/
def histNone : String → ChanResp := fun _ => ⟨false, []⟩

/-- A history environment whose first configured channel delivers a page
most recent first (timestamp 2.0 before timestamp 1.0), both messages
matching order number 12. -/
def histRev : String → ChanResp := fun c =>
  if c = "C0A02M2VCTB" then
    ⟨true, [⟨"2.0", "st.order 12"⟩, ⟨"1.0", "st.order 12"⟩]⟩
  else ⟨true, []⟩

/-- Like histRev, but with a different second channel: used to show the
result only depends on the first channel once it has a match. -/
def histRevB : String → ChanResp := fun c =>
  if c = "C0A02M2VCTB" then
    ⟨true, [⟨"2.0", "st.order 12"⟩, ⟨"1.0", "st.order 12"⟩]⟩
  else ⟨false, []⟩

/-- A history environment in which every channel has one message matching
order number 12. -/
def histFound : String → ChanResp := fun _ => ⟨true, [⟨"5.0", "st.order 12"⟩]⟩

/-! ## Reaction mappings (app.py lines 88 to 107) -/

/-- app.py payment_reaction: dictionary lookup with default none. -/
def payment_reaction (status : String) : Option String :=
  if status = "pending" then some "hourglass_flowing_sand"
  else if status = "authorized" then some "lock"
  else if status = "paid" then some "white_check_mark"
  else if status = "voided" then some "x"
  else none

/-- app.py fulfillment_reaction: dictionary lookup with default none. -/
def fulfillment_reaction (status : String) : Option String :=
  if status = "unfulfilled" then some "mailbox_with_no_mail"
  else if status = "fulfilled" then some "rocket"
  else none

/-- app.py stock_reaction: package emoji when the status is truthy and its
lowercasing equals the literal phrase, otherwise none.  The argument is
optional because the fetched metafield value may be absent (Python None). -/
def stock_reaction (status : Option String) : Option String :=
  match status with
  | none => none
  | some s => if s ≠ "" ∧ pyLower s = "stock available" then some "package" else none

/-! ## Stock metafield response parsing (app.py fetch_stock_status, lines 113 to 150)

The HTTP call itself is outside the embedding; its decoded JSON response is
the input.  The source extracts the value with a chain of dict.get calls
with dict defaults.  In Python, .get on a non-dict value (in particular on
None, the decoding of JSON null) raises AttributeError, which no caller
catches; the error value below models that uncaught exception. -/

/-- Decoded JSON values. -/
inductive Json where
  | null : Json
  | str : String → Json
  | boolv : Bool → Json
  | num : Int → Json
  | arr : List Json → Json
  | obj : List (String × Json) → Json

/-- Python dict.get with a default: on a dict, return the value of the key
if present (even when that value is null) and the default otherwise; on any
non-dict value, raise (AttributeError). -/
def pyGet (j : Json) (k : String) (dflt : Json) : Except Unit Json :=
  match j with
  | Json.obj fs =>
    match fs.find? (fun p => p.1 == k) with
    | some p => Except.ok p.2
    | none => Except.ok dflt
  | _ => Except.error ()

/-- app.py fetch_stock_status, extraction part (lines 141 to 147): the chain
resp.json().get with default empty dict at the data, order and metafield
levels and default None at the value level. -/
def fetch_stock_status (resp : Json) : Except Unit Json := do
  let d ← pyGet resp "data" (Json.obj [])
  let o ← pyGet d "order" (Json.obj [])
  let m ← pyGet o "metafield" (Json.obj [])
  pyGet m "value" Json.null

/-! ## The webhook handler as a state transition (app.py shopify_webhook,
lines 156 to 213)

State: the in-memory order_tracking map, modelled as an association list.
Inputs: the decoded order object of the request body, the chat history
environment, and the result of the stock-metafield call for this request
(ok with the fetched value, or error for an uncaught exception in the
fetch).  Output: the new state, the HTTP response, the list of reaction
calls dispatched, and flags recording whether the chat history was searched
and whether the stock fetch was issued. -/

/-- One tracking record (the dict stored in order_tracking). -/
structure Track where
  ts : String
  channel : String
  payment : Option String
  fulfillment : Option String
  stock : Option String
deriving DecidableEq

/-- The fields of the inbound order object that the handler reads.  The id
field is only forwarded to the stock-metafield call, whose result is a
separate input of the transition. -/
structure Order where
  name : Option String
  financial_status : Option String
  fulfillment_status : Option String
  id : Option String
deriving DecidableEq

/-- One dispatched reaction call: channel, message timestamp, emoji name. -/
structure Reaction where
  channel : String
  ts : String
  emoji : String
deriving DecidableEq

/-- The three HTTP responses the handler can produce, plus the uncaught
exception case.  badRequest is 400 with an error body, accepted is 202 with
body ok false, okTrue is 200 with body ok true, serverError is the 500 the
framework produces from an uncaught exception. -/
inductive Resp where
  | badRequest : Resp
  | accepted : Resp
  | okTrue : Resp
  | serverError : Resp
deriving DecidableEq

/-- The observable outcome of one webhook delivery. -/
structure StepOut where
  tracking : List (String × Track)
  resp : Resp
  reactions : List Reaction
  searchedSlack : Bool
  fetchedStock : Bool
deriving DecidableEq

/-- Lookup in the tracking map (first entry with the key). -/
def lookupTrack : List (String × Track) → String → Option Track
  | [], _ => none
  | p :: rest, k => if p.1 = k then some p.2 else lookupTrack rest k

/-- Store into the tracking map: replace the first entry with the key, or
append a new entry when the key is absent. -/
def setTrack : List (String × Track) → String → Track → List (String × Track)
  | [], k, t => [(k, t)]
  | p :: rest, k, t => if p.1 = k then (k, t) :: rest else p :: setTrack rest k t

/-- app.py line 166: str of the name field (empty when missing), every hash
sign removed, surrounding whitespace stripped. -/
def extract_order_number (o : Order) : String :=
  pyStrip (removeHash (o.name.getD ""))

/-- Modelled from the spec: the order number is the display name with a
leading hash sign removed and surrounding whitespace trimmed.  Used only to
compare the code against the spec sentence. -/
def orderNumberSpec (name : String) : String :=
  match (pyStrip name).data with
  | '#' :: r => String.mk r
  | l => String.mk l

/-- One status dimension of the handler (the payment, fulfillment and stock
blocks all have this shape): when the incoming value is truthy and differs
from the stored value, map it to an emoji, dispatch the reaction when the
mapping is defined, and advance the stored value; otherwise change nothing. -/
def dimStep (incoming stored : Option String) (react : String → Option String)
    (ch ts : String) : Option String × List Reaction :=
  match incoming with
  | none => (stored, [])
  | some v =>
    if v ≠ "" ∧ stored ≠ some v then
      (some v,
        match react v with
        | some e => [⟨ch, ts, e⟩]
        | none => [])
    else (stored, [])

/-- The record mutations and dispatches of one delivery for a given record:
payment and fulfillment from the order object, then the stock dimension from
the fetch result.  When the stock fetch raised, the first two mutations have
already happened (the source mutates in place before calling the fetch) and
the stock field is untouched. -/
def updTrack (order : Order) (stockRes : Except Unit (Option String)) (track : Track) :
    Track × List Reaction :=
  let pr := dimStep order.financial_status track.payment payment_reaction track.channel track.ts
  let fr := dimStep order.fulfillment_status track.fulfillment fulfillment_reaction
    track.channel track.ts
  match stockRes with
  | Except.error _ =>
    ({ track with payment := pr.1, fulfillment := fr.1 }, pr.2 ++ fr.2)
  | Except.ok stockVal =>
    let sr := dimStep stockVal track.stock (fun v => stock_reaction (some v))
      track.channel track.ts
    ({ track with payment := pr.1, fulfillment := fr.1, stock := sr.1 },
      pr.2 ++ fr.2 ++ sr.2)

/-- The HTTP response of the status-processing part: 200 ok when the stock
fetch returned, 500 when it raised. -/
def respOfStock : Except Unit (Option String) → Resp
  | Except.error _ => Resp.serverError
  | Except.ok _ => Resp.okTrue

/-- The part of the handler after a record is available (app.py lines 184
to 213). -/
def processTrack (tracking : List (String × Track)) (n : String) (order : Order)
    (stockRes : Except Unit (Option String)) (track : Track) (searched : Bool) : StepOut :=
  let ur := updTrack order stockRes track
  ⟨setTrack tracking n ur.1, respOfStock stockRes, ur.2, searched, true⟩

/-- app.py shopify_webhook as a state transition.  Control flow of the
source: extract the order number, reject with 400 when empty; when the
order number is untracked, resolve the chat message, answering 202 on
failure (a falsy timestamp) and creating the record on success; then process
the three status dimensions against the (found or pre-existing) record. -/
def shopify_webhook (tracking : List (String × Track)) (order : Order)
    (hist : String → ChanResp) (stockRes : Except Unit (Option String)) : StepOut :=
  let order_number := extract_order_number order
  if order_number = "" then ⟨tracking, Resp.badRequest, [], false, false⟩
  else
    match lookupTrack tracking order_number with
    | some track => processTrack tracking order_number order stockRes track false
    | none =>
      match find_new_order_message hist order_number with
      | none => ⟨tracking, Resp.accepted, [], true, false⟩
      | some (ts, ch) =>
        if ts = "" then ⟨tracking, Resp.accepted, [], true, false⟩
        else
          processTrack (setTrack tracking order_number ⟨ts, ch, none, none, none⟩)
            order_number order stockRes ⟨ts, ch, none, none, none⟩ true

/-- A sequence of sequentially processed webhook deliveries, each with its
own order object, history environment and stock-fetch result. -/
def runWebhooks (evs : List (Order × (String → ChanResp) × Except Unit (Option String)))
    (s : List (String × Track)) : List (String × Track) :=
  match evs with
  | [] => s
  | e :: rest => runWebhooks rest (shopify_webhook s e.1 e.2.1 e.2.2).tracking

/-! ## Lemmas about the tracking map -/

theorem lookupTrack_setTrack_self (m : List (String × Track)) (k : String) (t : Track) :
    lookupTrack (setTrack m k t) k = some t := by
  induction m with
  | nil => simp [setTrack, lookupTrack]
  | cons p rest ih =>
    by_cases h : p.1 = k
    · simp [setTrack, lookupTrack, h]
    · simp [setTrack, lookupTrack, h, ih]

theorem lookupTrack_setTrack_ne (m : List (String × Track)) (k k2 : String) (t : Track)
    (h : k2 ≠ k) : lookupTrack (setTrack m k t) k2 = lookupTrack m k2 := by
  induction m with
  | nil => simp [setTrack, lookupTrack, Ne.symm h]
  | cons p rest ih =>
    by_cases hp : p.1 = k
    · simp [setTrack, lookupTrack, hp, Ne.symm h, h]
    · simp [setTrack, lookupTrack, hp, ih]

theorem setTrack_eq_self (m : List (String × Track)) (k : String) (t : Track)
    (h : lookupTrack m k = some t) : setTrack m k t = m := by
  induction m with
  | nil => simp [lookupTrack] at h
  | cons p rest ih =>
    obtain ⟨p1, p2⟩ := p
    by_cases hp : p1 = k
    · subst hp
      simp [lookupTrack] at h
      subst h
      simp [setTrack]
    · simp only [lookupTrack, if_neg hp] at h
      simp [setTrack, hp, ih h]

theorem setTrack_setTrack (m : List (String × Track)) (k : String) (t t2 : Track) :
    setTrack (setTrack m k t) k t2 = setTrack m k t2 := by
  induction m with
  | nil => simp [setTrack]
  | cons p rest ih =>
    by_cases hp : p.1 = k
    · simp [setTrack, hp]
    · simp [setTrack, hp, ih]

/-! ## Lemmas about the per-dimension update -/

theorem dimStep_idem (incoming stored : Option String) (react : String → Option String)
    (ch ts : String) :
    dimStep incoming (dimStep incoming stored react ch ts).1 react ch ts
      = ((dimStep incoming stored react ch ts).1, []) := by
  match incoming with
  | none => simp [dimStep]
  | some v =>
    by_cases h : v ≠ "" ∧ stored ≠ some v
    · simp [dimStep, h]
    · simp [dimStep, h]

theorem updTrack_ts (order : Order) (stockRes : Except Unit (Option String)) (track : Track) :
    (updTrack order stockRes track).1.ts = track.ts ∧
      (updTrack order stockRes track).1.channel = track.channel := by
  cases stockRes <;> simp [updTrack]

theorem updTrack_idem (order : Order) (stockRes : Except Unit (Option String)) (track : Track) :
    updTrack order stockRes (updTrack order stockRes track).1
      = ((updTrack order stockRes track).1, []) := by
  cases stockRes with
  | error e => simp [updTrack, dimStep_idem]
  | ok stockVal => simp [updTrack, dimStep_idem]

/-! ## Lemmas about the message scan -/

theorem scanMsgs_eq_none_iff (n : String) (l : List SlackMsg) :
    scanMsgs n l = none ↔ ∀ m ∈ l, is_new_order_message m.text n = false := by
  induction l with
  | nil => simp [scanMsgs]
  | cons m rest ih =>
    by_cases h : is_new_order_message m.text n
    · simp [scanMsgs, h]
    · simp only [Bool.not_eq_true] at h
      simp [scanMsgs, h, ih]

theorem scanMsgs_eq_some_iff (n : String) (l : List SlackMsg) (ts : String) :
    scanMsgs n l = some ts ↔ firstScanHit n l ts := by
  induction l with
  | nil =>
    simp only [scanMsgs, firstScanHit]
    constructor
    · intro h
      cases h
    · rintro ⟨pre, m, post, h, -⟩
      exact absurd h (by simp)
  | cons m rest ih =>
    by_cases h : is_new_order_message m.text n
    · simp only [scanMsgs, h, if_true]
      constructor
      · intro hts
        refine ⟨[], m, rest, by simp, Option.some_inj.mp hts, h, by simp⟩
      · rintro ⟨pre, m2, post, heq, hts, hm2, hpre⟩
        cases pre with
        | nil =>
          simp only [List.nil_append, List.cons.injEq] at heq
          rw [← heq.1] at hts
          simp [hts]
        | cons q qre =>
          simp only [List.cons_append, List.cons.injEq] at heq
          have : is_new_order_message m.text n = false := by
            rw [heq.1] at h ⊢
            exact hpre q (by simp)
          rw [this] at h
          cases h
    · simp only [Bool.not_eq_true] at h
      simp only [scanMsgs, h, Bool.false_eq_true, if_false]
      rw [ih]
      constructor
      · rintro ⟨pre, m2, post, heq, hts, hm2, hpre⟩
        refine ⟨m :: pre, m2, post, by simp [heq], hts, hm2, ?_⟩
        intro m3 hm3
        rcases List.mem_cons.mp hm3 with h3 | h3
        · rw [h3]; exact h
        · exact hpre m3 h3
      · rintro ⟨pre, m2, post, heq, hts, hm2, hpre⟩
        cases pre with
        | nil =>
          simp only [List.nil_append, List.cons.injEq] at heq
          rw [heq.1] at h
          rw [h] at hm2
          cases hm2
        | cons q qre =>
          simp only [List.cons_append, List.cons.injEq] at heq
          exact ⟨qre, m2, post, heq.2, hts, hm2, fun m3 hm3 => hpre m3 (by simp [hm3])⟩

theorem scanMsgs_ne_none_of_mem (n : String) (l : List SlackMsg) (m : SlackMsg)
    (hm : m ∈ l) (h : is_new_order_message m.text n = true) : scanMsgs n l ≠ none := by
  intro hnone
  rw [scanMsgs_eq_none_iff] at hnone
  rw [hnone m hm] at h
  cases h

/-! ## Lemmas about the regex search -/

theorem capAux_nil (prev : Option Char) (i : Nat) : capAux prev [] i = none := by
  cases i with
  | zero => simp [capAux, matchStOrder, stOrderChars, litMatch]
  | succ j => simp [capAux]

theorem reSearchAux_eq_some_iff (l : List Char) : ∀ (prev : Option Char) (d : String),
    reSearchAux prev l = some d ↔
      ∃ i, capAux prev l i = some d ∧ ∀ j, j < i → capAux prev l j = none := by
  induction l with
  | nil =>
    intro prev d
    simp [reSearchAux, capAux_nil]
  | cons c rest ih =>
    intro prev d
    constructor
    · intro h
      simp only [reSearchAux] at h
      cases h0 : (if boundaryB prev then matchStOrder (c :: rest) else none) with
      | some d0 =>
        rw [h0] at h
        simp only [Option.some_inj] at h
        refine ⟨0, by simp [capAux, h0, h], ?_⟩
        intro j hj
        exact absurd hj (Nat.not_lt_zero j)
      | none =>
        rw [h0] at h
        obtain ⟨i, hi, hj⟩ := (ih (some c) d).mp h
        refine ⟨i + 1, by simpa [capAux] using hi, ?_⟩
        intro j hj2
        cases j with
        | zero => simpa [capAux] using h0
        | succ j2 => simpa [capAux] using hj j2 (by omega)
    · rintro ⟨i, hi, hj⟩
      simp only [reSearchAux]
      cases h0 : (if boundaryB prev then matchStOrder (c :: rest) else none) with
      | some d0 =>
        cases i with
        | zero =>
          simp only [capAux, h0] at hi
          rw [hi]
        | succ i2 =>
          have h1 := hj 0 (by omega)
          simp only [capAux, h0] at h1
          cases h1
      | none =>
        cases i with
        | zero =>
          simp only [capAux, h0] at hi
          cases hi
        | succ i2 =>
          apply (ih (some c) d).mpr
          refine ⟨i2, by simpa [capAux] using hi, ?_⟩
          intro j hj2
          have h1 := hj (j + 1) (by omega)
          simpa [capAux] using h1

theorem is_new_iff_leftmost (t n : String) :
    is_new_order_message t n = true ↔
      ∃ i, capAux none (pyLower t).data i = some n ∧
        ∀ j, j < i → capAux none (pyLower t).data j = none := by
  by_cases ht : t = ""
  · subst ht
    have hd : (pyLower "").data = [] := rfl
    simp [is_new_order_message, hd, capAux_nil]
  · constructor
    · intro h
      cases hr : reSearchAux none (pyLower t).data with
      | none => simp [is_new_order_message, ht, hr] at h
      | some d =>
        simp only [is_new_order_message, ht, if_false, hr, beq_iff_eq] at h
        rw [h] at hr
        exact (reSearchAux_eq_some_iff _ none n).mp hr
    · intro hx
      have hr : reSearchAux none (pyLower t).data = some n :=
        (reSearchAux_eq_some_iff _ none n).mpr hx
      simp [is_new_order_message, ht, hr]

/-! ## Auxiliary string lemmas -/

theorem string_mk_eq_empty_iff (l : List Char) : String.mk l = "" ↔ l = [] := by
  constructor
  · intro h
    exact congrArg String.data h
  · intro h
    rw [h]

theorem all_dropWhile_iff (p : Char → Bool) (l : List Char) :
    (∀ x ∈ l.dropWhile p, p x = true) ↔ ∀ x ∈ l, p x = true := by
  induction l with
  | nil => simp
  | cons a l ih =>
    by_cases h : p a
    · simp [List.dropWhile_cons, h, ih]
    · simp only [Bool.not_eq_true] at h
      simp [List.dropWhile_cons, h]

/-- The extracted order number is empty exactly when every character of the
name (empty when the field is missing) is a hash sign or whitespace. -/
theorem extract_eq_empty_iff (o : Order) :
    extract_order_number o = "" ↔
      ∀ c ∈ (o.name.getD "").data, c = '#' ∨ isPySpace c = true := by
  have hrep : extract_order_number o
      = String.mk (((((o.name.getD "").data.filter (fun c => c ≠ '#')).dropWhile
          isPySpace).reverse.dropWhile isPySpace).reverse) := rfl
  rw [hrep, string_mk_eq_empty_iff, List.reverse_eq_nil_iff, List.dropWhile_eq_nil_iff]
  simp only [List.mem_reverse]
  rw [all_dropWhile_iff]
  simp only [List.mem_filter, decide_eq_true_eq, and_imp]
  constructor
  · intro h c hc
    by_cases h2 : c = '#'
    · exact Or.inl h2
    · exact Or.inr (h c hc h2)
  · intro h c hc hne
    rcases h c hc with h2 | h2
    · exact absurd h2 hne
    · exact h2

/-! ## The claims -/

/-- C1 counterexample: the match predicate is not the containment predicate
of the claim.  The text st.order 99 st.order 12 contains the marker token
with captured digits 12 (at position 12, witnessed by capAux), yet the code
returns false for order number 12 because re.search only inspects the
leftmost occurrence, whose digits are 99. -/
theorem C1_counterexample :
    is_new_order_message "st.order 99 st.order 12" "12" = false ∧
    capAux none (pyLower "st.order 99 st.order 12").data 12 = some "12" := by
  exact ⟨rfl, rfl⟩

/-- C1 (amended): the match predicate returns true iff the LEFTMOST position
of the lowercased text at which the token matches (st.order, whitespace,
optional hash sign, digit run as a whole word) captures digits equal to the
order number by string equality; later occurrences are not examined.  The
strictness examples of the claim all return false: st.order12 with order
number 1, st.orders 12, and order hash-12 without the st. marker. -/
theorem C1_match_leftmost :
    (∀ t n, is_new_order_message t n = true ↔
      ∃ i, capAux none (pyLower t).data i = some n ∧
        ∀ j, j < i → capAux none (pyLower t).data j = none) ∧
    is_new_order_message "st.order12" "1" = false ∧
    is_new_order_message "st.orders 12" "12" = false ∧
    is_new_order_message "order #12" "12" = false :=
  ⟨is_new_iff_leftmost, rfl, rfl, rfl⟩

/-- C1 witness: the leftmost characterization applied at a concrete matching
input. -/
theorem C1_match_leftmost_witness :
    is_new_order_message "st.order #12" "12" = true :=
  (C1_match_leftmost.1 "st.order #12" "12").mpr
    ⟨0, rfl, fun j hj => absurd hj (Nat.not_lt_zero j)⟩

/-- C4 counterexample: extraction removes EVERY hash sign, not only a
leading one.  For display name 12#34 the code produces 1234, while the
claimed leading-hash normalization keeps 12#34. -/
theorem C4_counterexample :
    extract_order_number ⟨some "12#34", none, none, none⟩ = "1234" ∧
    orderNumberSpec "12#34" = "12#34" ∧ ("1234" : String) ≠ "12#34" := by
  refine ⟨rfl, by decide, by decide⟩

/-- C4 (amended): the extracted order number equals the display name with
every hash sign removed (order preserved for the other characters) and
surrounding whitespace trimmed; a missing name extracts to the empty string;
and the handler responds 400 exactly when the extracted string is empty. -/
theorem C4_extraction :
    ∀ (s : List (String × Track)) (o : Order) (hist : String → ChanResp)
      (st : Except Unit (Option String)),
      ((shopify_webhook s o hist st).resp = Resp.badRequest ↔ extract_order_number o = "") ∧
      (∀ nm, o.name = some nm →
        extract_order_number o
          = pyStrip (String.mk (nm.data.filter (fun c => c ≠ '#')))) ∧
      (o.name = none → extract_order_number o = "") := by
  intro s o hist st
  refine ⟨?_, ?_, ?_⟩
  · by_cases he : extract_order_number o = ""
    · simp [shopify_webhook, he]
    · simp only [shopify_webhook, he, if_false]
      cases hl : lookupTrack s (extract_order_number o) with
      | some track =>
        cases st <;> simp [processTrack, respOfStock, he]
      | none =>
        cases hf : find_new_order_message hist (extract_order_number o) with
        | none => simp [he]
        | some pr =>
          obtain ⟨ts, ch⟩ := pr
          by_cases hts : ts = "" <;>
            cases st <;> simp [hts, processTrack, respOfStock, he]
  · intro nm h
    simp [extract_order_number, h, removeHash]
  · intro h
    simp only [extract_order_number, h, Option.getD_none]
    rfl

/-- C4 witness: the amended extraction applied at concrete inputs. -/
theorem C4_extraction_witness :
    extract_order_number ⟨some " #10#1 ", none, none, none⟩
      = pyStrip (String.mk (" #10#1 ".data.filter (fun c => c ≠ '#'))) ∧
    extract_order_number ⟨none, none, none, none⟩ = "" :=
  ⟨(C4_extraction [] ⟨some " #10#1 ", none, none, none⟩ (fun _ => ⟨false, []⟩)
      (Except.ok none)).2.1 " #10#1 " rfl,
    (C4_extraction [] ⟨none, none, none, none⟩ (fun _ => ⟨false, []⟩)
      (Except.ok none)).2.2 rfl⟩

/-- C5: the three reaction mappings are exactly the tables of the spec.
Payment: pending, authorized, paid and voided map to the hourglass, lock,
check and cross emoji names and every other string maps to none.
Fulfillment: unfulfilled and fulfilled map to the mailbox and rocket emoji
names and every other string maps to none.  Stock: exactly the strings whose
lowercasing equals the phrase stock available map to the package emoji, and
everything else, including an absent value, maps to none. -/
theorem C5_reaction_tables :
    payment_reaction "pending" = some "hourglass_flowing_sand" ∧
    payment_reaction "authorized" = some "lock" ∧
    payment_reaction "paid" = some "white_check_mark" ∧
    payment_reaction "voided" = some "x" ∧
    (∀ s, s ≠ "pending" → s ≠ "authorized" → s ≠ "paid" → s ≠ "voided" →
      payment_reaction s = none) ∧
    fulfillment_reaction "unfulfilled" = some "mailbox_with_no_mail" ∧
    fulfillment_reaction "fulfilled" = some "rocket" ∧
    (∀ s, s ≠ "unfulfilled" → s ≠ "fulfilled" → fulfillment_reaction s = none) ∧
    (∀ s, stock_reaction (some s) = some "package" ↔ pyLower s = pyLower "stock available") ∧
    stock_reaction none = none ∧
    (∀ s e, stock_reaction s = some e → e = "package") := by
  refine ⟨rfl, rfl, rfl, rfl, ?_, rfl, rfl, ?_, ?_, rfl, ?_⟩
  · intro s h1 h2 h3 h4
    simp [payment_reaction, h1, h2, h3, h4]
  · intro s h1 h2
    simp [fulfillment_reaction, h1, h2]
  · intro s
    constructor
    · intro h
      simp only [stock_reaction] at h
      by_cases hc : s ≠ "" ∧ pyLower s = "stock available"
      · rw [hc.2]
        rfl
      · rw [if_neg hc] at h
        cases h
    · intro h
      have hlit : pyLower "stock available" = "stock available" := rfl
      rw [hlit] at h
      have hne : s ≠ "" := by
        intro he
        subst he
        exact absurd h (by decide)
      simp [stock_reaction, hne, h]
  · intro s e h
    match s with
    | none => simp [stock_reaction] at h
    | some v =>
      simp only [stock_reaction] at h
      by_cases hc : v ≠ "" ∧ pyLower v = "stock available"
      · rw [if_pos hc] at h
        exact (Option.some_inj.mp h).symm
      · rw [if_neg hc] at h
        cases h

/-- C5 witness: the unmapped-value and stock parts applied at concrete
inputs. -/
theorem C5_reaction_tables_witness :
    payment_reaction "refunded" = none ∧
    fulfillment_reaction "partial" = none ∧
    stock_reaction (some "STOCK Available") = some "package" := by
  refine ⟨?_, ?_, ?_⟩
  · exact C5_reaction_tables.2.2.2.2.1 "refunded"
      (by decide) (by decide) (by decide) (by decide)
  · exact C5_reaction_tables.2.2.2.2.2.2.2.1 "partial" (by decide) (by decide)
  · exact (C5_reaction_tables.2.2.2.2.2.2.2.2.1 "STOCK Available").mpr (by decide)

/-- C7: the stock-metafield extraction tolerates ABSENT keys (the dict.get
defaults), but a null intermediate value makes dict.get raise AttributeError
(modelled as the error result), which no caller catches, so it propagates to
the webhook caller as a 500 instead of being treated as no value.  The first
conjunct evaluates the code at the failing input with a null order level;
the second shows the fully absent response is tolerated. -/
theorem C7_null_intermediate_raises :
    fetch_stock_status (Json.obj [("data", Json.obj [("order", Json.null)])])
      = Except.error () ∧
    fetch_stock_status (Json.obj []) = Except.ok Json.null :=
  ⟨rfl, rfl⟩

/-- C8: a payload whose extracted order number is empty is answered with 400
with no record created, no reactions dispatched, no chat search and no stock
fetch, and the tracking state is returned unchanged; and the extracted order
number is empty exactly when the name is missing or consists only of hash
signs and whitespace. -/
theorem C8_empty_rejected :
    (∀ (s : List (String × Track)) (o : Order) (hist : String → ChanResp)
        (st : Except Unit (Option String)), extract_order_number o = "" →
        shopify_webhook s o hist st = ⟨s, Resp.badRequest, [], false, false⟩) ∧
    (∀ o : Order, extract_order_number o = "" ↔
        ∀ c ∈ (o.name.getD "").data, c = '#' ∨ isPySpace c = true) := by
  constructor
  · intro s o hist st h
    simp [shopify_webhook, h]
  · exact extract_eq_empty_iff

/-- C8 witness: a concrete whitespace-and-hash-only name is rejected with no
side effects. -/
theorem C8_empty_rejected_witness :
    shopify_webhook [] ⟨some " ## ", none, none, none⟩ (fun _ => ⟨false, []⟩)
        (Except.ok none)
      = ⟨[], Resp.badRequest, [], false, false⟩ ∧
    extract_order_number ⟨some " ## ", none, none, none⟩ = "" :=
  ⟨C8_empty_rejected.1 [] ⟨some " ## ", none, none, none⟩ (fun _ => ⟨false, []⟩)
      (Except.ok none) rfl,
    (C8_empty_rejected.2 ⟨some " ## ", none, none, none⟩).mpr (by decide)⟩

/-! ## Lemmas about the webhook transition -/

/-- Running the status-processing part a second time against the record it
just produced changes nothing and dispatches nothing. -/
theorem processTrack_second (m : List (String × Track)) (n : String) (o : Order)
    (st : Except Unit (Option String)) (track : Track) (b b2 : Bool) :
    (processTrack (processTrack m n o st track b).tracking n o st
        (updTrack o st track).1 b2).tracking
      = (processTrack m n o st track b).tracking ∧
    (processTrack (processTrack m n o st track b).tracking n o st
        (updTrack o st track).1 b2).reactions = [] := by
  constructor
  · show setTrack (setTrack m n (updTrack o st track).1) n
        (updTrack o st (updTrack o st track).1).1 = setTrack m n (updTrack o st track).1
    rw [updTrack_idem, setTrack_setTrack]
  · show (updTrack o st (updTrack o st track).1).2 = []
    rw [updTrack_idem]

/-- One webhook delivery never removes a tracked order and never changes the
message reference of its record. -/
theorem step_preserves_ref (s : List (String × Track)) (o : Order)
    (hist : String → ChanResp) (st : Except Unit (Option String)) (k : String) (t : Track)
    (h : lookupTrack s k = some t) :
    ∃ t2, lookupTrack (shopify_webhook s o hist st).tracking k = some t2 ∧
      t2.ts = t.ts ∧ t2.channel = t.channel := by
  by_cases he : extract_order_number o = ""
  · simp only [shopify_webhook, he, if_true]
    exact ⟨t, h, rfl, rfl⟩
  · by_cases hk : extract_order_number o = k
    · rw [← hk] at h
      have h1 : shopify_webhook s o hist st
          = processTrack s (extract_order_number o) o st t false := by
        simp [shopify_webhook, he, h]
      rw [h1, ← hk]
      simp only [processTrack]
      exact ⟨(updTrack o st t).1, lookupTrack_setTrack_self _ _ _,
        (updTrack_ts o st t).1, (updTrack_ts o st t).2⟩
    · have hkne : k ≠ extract_order_number o := fun hh => hk hh.symm
      cases hl : lookupTrack s (extract_order_number o) with
      | some track =>
        have h1 : shopify_webhook s o hist st
            = processTrack s (extract_order_number o) o st track false := by
          simp [shopify_webhook, he, hl]
        rw [h1]
        simp only [processTrack]
        rw [lookupTrack_setTrack_ne _ _ _ _ hkne]
        exact ⟨t, h, rfl, rfl⟩
      | none =>
        cases hf : find_new_order_message hist (extract_order_number o) with
        | none =>
          have h1 : shopify_webhook s o hist st = ⟨s, Resp.accepted, [], true, false⟩ := by
            simp [shopify_webhook, he, hl, hf]
          rw [h1]
          exact ⟨t, h, rfl, rfl⟩
        | some pr =>
          obtain ⟨ts, ch⟩ := pr
          by_cases hts : ts = ""
          · have h1 : shopify_webhook s o hist st = ⟨s, Resp.accepted, [], true, false⟩ := by
              simp [shopify_webhook, he, hl, hf, hts]
            rw [h1]
            exact ⟨t, h, rfl, rfl⟩
          · have h1 : shopify_webhook s o hist st
                = processTrack (setTrack s (extract_order_number o) ⟨ts, ch, none, none, none⟩)
                    (extract_order_number o) o st ⟨ts, ch, none, none, none⟩ true := by
              simp [shopify_webhook, he, hl, hf, hts]
            rw [h1]
            simp only [processTrack]
            rw [lookupTrack_setTrack_ne _ _ _ _ hkne, lookupTrack_setTrack_ne _ _ _ _ hkne]
            exact ⟨t, h, rfl, rfl⟩

/-! ## The remaining claims -/

/-- C2: the webhook transition is idempotent.  Delivering the same payload
again, with the same history environment and the same fetched stock value,
leaves the tracking state unchanged and dispatches no reaction at all, so
across the two deliveries each dimension dispatches at most once.  This
holds with no assumption on the initial state: for an already tracked order
the second delivery sees every stored status equal to the incoming one; for
an order created by the first delivery the same applies; for a rejected or
deferred first delivery the second repeats it without dispatching. -/
theorem C2_idempotent (s : List (String × Track)) (o : Order)
    (hist : String → ChanResp) (st : Except Unit (Option String)) :
    (shopify_webhook (shopify_webhook s o hist st).tracking o hist st).tracking
      = (shopify_webhook s o hist st).tracking ∧
    (shopify_webhook (shopify_webhook s o hist st).tracking o hist st).reactions = [] := by
  by_cases he : extract_order_number o = ""
  · simp [shopify_webhook, he]
  · cases hl : lookupTrack s (extract_order_number o) with
    | some track =>
      have h1 : shopify_webhook s o hist st
          = processTrack s (extract_order_number o) o st track false := by
        simp [shopify_webhook, he, hl]
      rw [h1]
      have hlk : lookupTrack
          (processTrack s (extract_order_number o) o st track false).tracking
          (extract_order_number o) = some (updTrack o st track).1 := by
        simp only [processTrack]
        exact lookupTrack_setTrack_self _ _ _
      have h2 : shopify_webhook
          (processTrack s (extract_order_number o) o st track false).tracking o hist st
          = processTrack (processTrack s (extract_order_number o) o st track false).tracking
              (extract_order_number o) o st (updTrack o st track).1 false := by
        simp [shopify_webhook, he, hlk]
      rw [h2]
      exact processTrack_second s (extract_order_number o) o st track false false
    | none =>
      cases hf : find_new_order_message hist (extract_order_number o) with
      | none =>
        have h1 : shopify_webhook s o hist st = ⟨s, Resp.accepted, [], true, false⟩ := by
          simp [shopify_webhook, he, hl, hf]
        simp [h1, shopify_webhook, he, hl, hf]
      | some pr =>
        obtain ⟨ts, ch⟩ := pr
        by_cases hts : ts = ""
        · have h1 : shopify_webhook s o hist st = ⟨s, Resp.accepted, [], true, false⟩ := by
            simp [shopify_webhook, he, hl, hf, hts]
          simp [h1, shopify_webhook, he, hl, hf, hts]
        · have h1 : shopify_webhook s o hist st
              = processTrack (setTrack s (extract_order_number o) ⟨ts, ch, none, none, none⟩)
                  (extract_order_number o) o st ⟨ts, ch, none, none, none⟩ true := by
            simp [shopify_webhook, he, hl, hf, hts]
          rw [h1]
          have hlk : lookupTrack
              (processTrack (setTrack s (extract_order_number o) ⟨ts, ch, none, none, none⟩)
                (extract_order_number o) o st ⟨ts, ch, none, none, none⟩ true).tracking
              (extract_order_number o)
              = some (updTrack o st ⟨ts, ch, none, none, none⟩).1 := by
            simp only [processTrack]
            exact lookupTrack_setTrack_self _ _ _
          have h2 : shopify_webhook
              (processTrack (setTrack s (extract_order_number o) ⟨ts, ch, none, none, none⟩)
                (extract_order_number o) o st ⟨ts, ch, none, none, none⟩ true).tracking o hist st
              = processTrack
                  (processTrack (setTrack s (extract_order_number o) ⟨ts, ch, none, none, none⟩)
                    (extract_order_number o) o st ⟨ts, ch, none, none, none⟩ true).tracking
                  (extract_order_number o) o st
                  (updTrack o st ⟨ts, ch, none, none, none⟩).1 false := by
            simp [shopify_webhook, he, hlk]
          rw [h2]
          exact processTrack_second _ (extract_order_number o) o st _ true false

/-- C3 counterexample: the scan direction is the reverse of the claimed one.
When the first configured channel delivers its page most recent first (the
message with timestamp 2.0 before the one with timestamp 1.0, both
matching), the code returns the OLDEST match (timestamp 1.0), whereas a scan
from most recent to oldest, as the claim states (modelled by
find_new_order_message_spec), returns the newest match (timestamp 2.0). -/
theorem C3_counterexample :
    find_new_order_message histRev "12" = some ("1.0", "C0A02M2VCTB") ∧
    find_new_order_message_spec histRev "12" = some ("2.0", "C0A02M2VCTB") ∧
    (("1.0", "C0A02M2VCTB") : String × String) ≠ ("2.0", "C0A02M2VCTB") := by
  refine ⟨rfl, rfl, by decide⟩

/-- C3 (amended): resolution visits the two configured channels in their
fixed priority order and scans each fetched page in REVERSE fetch order
(oldest to newest, since pages are delivered most recent first).  Whenever
it returns a timestamp and channel, that channel is one of the two
configured ones, the returned timestamp is the first hit of the reversed
page scan of that channel, and a hit in the second channel implies the first
channel had no matching message (or a failed fetch).  Moreover, once the
first channel has an ok page containing a match, the result does not depend
on the remaining channel at all. -/
theorem C3_resolution_order :
    (∀ (hist : String → ChanResp) (n ts c : String),
      find_new_order_message hist n = some (ts, c) →
        ((c = "C0A02M2VCTB" ∧ (hist "C0A02M2VCTB").ok = true ∧
            firstScanHit n (hist "C0A02M2VCTB").messages.reverse ts) ∨
         (c = "C0A068PHZMY" ∧ (hist "C0A068PHZMY").ok = true ∧
            firstScanHit n (hist "C0A068PHZMY").messages.reverse ts ∧
            ((hist "C0A02M2VCTB").ok = true →
              ∀ m ∈ (hist "C0A02M2VCTB").messages,
                is_new_order_message m.text n = false)))) ∧
    (∀ (hist hist2 : String → ChanResp) (n : String),
      hist2 "C0A02M2VCTB" = hist "C0A02M2VCTB" →
      (hist "C0A02M2VCTB").ok = true →
      (∃ m ∈ (hist "C0A02M2VCTB").messages, is_new_order_message m.text n = true) →
      find_new_order_message hist2 n = find_new_order_message hist n) := by
  constructor
  · intro hist n ts c h
    simp only [find_new_order_message, CHANNELS_TO_SEARCH, goChannels] at h
    by_cases h1 : (hist "C0A02M2VCTB").ok = true
    · rw [if_pos h1] at h
      cases hs : scanMsgs n (hist "C0A02M2VCTB").messages.reverse with
      | some ts1 =>
        rw [hs] at h
        simp only [Option.some_inj, Prod.mk.injEq] at h
        left
        refine ⟨h.2.symm, h1, ?_⟩
        rw [← h.1]
        exact (scanMsgs_eq_some_iff n _ ts1).mp hs
      | none =>
        rw [hs] at h
        by_cases h2 : (hist "C0A068PHZMY").ok = true
        · rw [if_pos h2] at h
          cases hs2 : scanMsgs n (hist "C0A068PHZMY").messages.reverse with
          | some ts2 =>
            rw [hs2] at h
            simp only [Option.some_inj, Prod.mk.injEq] at h
            right
            refine ⟨h.2.symm, h2, ?_, ?_⟩
            · rw [← h.1]
              exact (scanMsgs_eq_some_iff n _ ts2).mp hs2
            · intro _ m hm
              have hall := (scanMsgs_eq_none_iff n _).mp hs
              exact hall m (List.mem_reverse.mpr hm)
          | none =>
            rw [hs2] at h
            cases h
        · rw [if_neg h2] at h
          cases h
    · rw [if_neg h1] at h
      by_cases h2 : (hist "C0A068PHZMY").ok = true
      · rw [if_pos h2] at h
        cases hs2 : scanMsgs n (hist "C0A068PHZMY").messages.reverse with
        | some ts2 =>
          rw [hs2] at h
          simp only [Option.some_inj, Prod.mk.injEq] at h
          right
          refine ⟨h.2.symm, h2, ?_, ?_⟩
          · rw [← h.1]
            exact (scanMsgs_eq_some_iff n _ ts2).mp hs2
          · intro hcontr
            exact absurd hcontr h1
        | none =>
          rw [hs2] at h
          cases h
      · rw [if_neg h2] at h
        cases h
  · intro hist hist2 n heq hok hex
    obtain ⟨m, hm, hmt⟩ := hex
    cases hs : scanMsgs n (hist "C0A02M2VCTB").messages.reverse with
    | none =>
      exact absurd hs (scanMsgs_ne_none_of_mem n _ m (List.mem_reverse.mpr hm) hmt)
    | some ts1 =>
      simp [find_new_order_message, CHANNELS_TO_SEARCH, goChannels, heq, hok, hs]

/-- C3 witness: the characterization and the channel-independence applied at
concrete histories. -/
theorem C3_resolution_order_witness :
    (("C0A02M2VCTB" = "C0A02M2VCTB" ∧ (histRev "C0A02M2VCTB").ok = true ∧
        firstScanHit "12" (histRev "C0A02M2VCTB").messages.reverse "1.0") ∨
     ("C0A02M2VCTB" = "C0A068PHZMY" ∧ (histRev "C0A068PHZMY").ok = true ∧
        firstScanHit "12" (histRev "C0A068PHZMY").messages.reverse "1.0" ∧
        ((histRev "C0A02M2VCTB").ok = true →
          ∀ m ∈ (histRev "C0A02M2VCTB").messages,
            is_new_order_message m.text "12" = false))) ∧
    find_new_order_message histRevB "12" = find_new_order_message histRev "12" :=
  ⟨C3_resolution_order.1 histRev "12" "1.0" "C0A02M2VCTB" rfl,
    C3_resolution_order.2 histRev histRevB "12" rfl rfl
      ⟨⟨"2.0", "st.order 12"⟩, by decide, rfl⟩⟩

/-- C6: when the order number is untracked and chat message resolution
fails, the handler answers 202 (body ok false), creates no record, leaves
the tracking map unchanged, dispatches no reaction — the full output is the
unchanged state with the accepted response — and the failure is not
memoized: a later delivery for the same order number searches the history
again (searchedSlack true) and, when resolution then succeeds with a
nonempty timestamp, creates the record referencing exactly that timestamp
and channel. -/
theorem C6_resolution_failure_defers :
    ∀ (s : List (String × Track)) (o : Order) (hist hist2 : String → ChanResp)
      (st st2 : Except Unit (Option String)),
      extract_order_number o ≠ "" →
      lookupTrack s (extract_order_number o) = none →
      find_new_order_message hist (extract_order_number o) = none →
      (shopify_webhook s o hist st = ⟨s, Resp.accepted, [], true, false⟩) ∧
      (∀ ts ch, find_new_order_message hist2 (extract_order_number o) = some (ts, ch) →
        ts ≠ "" →
        (shopify_webhook s o hist2 st2).searchedSlack = true ∧
        ∃ t2, lookupTrack (shopify_webhook s o hist2 st2).tracking (extract_order_number o)
            = some t2 ∧ t2.ts = ts ∧ t2.channel = ch) := by
  intro s o hist hist2 st st2 he hl hf
  constructor
  · simp [shopify_webhook, he, hl, hf]
  · intro ts ch hf2 hts
    have h1 : shopify_webhook s o hist2 st2
        = processTrack (setTrack s (extract_order_number o) ⟨ts, ch, none, none, none⟩)
            (extract_order_number o) o st2 ⟨ts, ch, none, none, none⟩ true := by
      simp [shopify_webhook, he, hl, hf2, hts]
    rw [h1]
    refine ⟨rfl, (updTrack o st2 ⟨ts, ch, none, none, none⟩).1, ?_, ?_, ?_⟩
    · simp only [processTrack]
      exact lookupTrack_setTrack_self _ _ _
    · exact (updTrack_ts o st2 _).1
    · exact (updTrack_ts o st2 _).2

/-- C6 witness: a failed resolution defers with no side effects, and a
repeat delivery with a now-matching history creates the record. -/
theorem C6_resolution_failure_defers_witness :
    (shopify_webhook [] ⟨some "12", none, none, none⟩ histNone (Except.ok none)
      = ⟨[], Resp.accepted, [], true, false⟩) ∧
    ((shopify_webhook [] ⟨some "12", none, none, none⟩ histFound
        (Except.ok none)).searchedSlack = true ∧
      ∃ t2, lookupTrack (shopify_webhook [] ⟨some "12", none, none, none⟩ histFound
            (Except.ok none)).tracking
          (extract_order_number ⟨some "12", none, none, none⟩)
        = some t2 ∧ t2.ts = "5.0" ∧ t2.channel = "C0A02M2VCTB") := by
  have h := C6_resolution_failure_defers [] ⟨some "12", none, none, none⟩ histNone histFound
    (Except.ok none) (Except.ok none) (by decide) rfl rfl
  exact ⟨h.1, h.2 "5.0" "C0A02M2VCTB" rfl (by decide)⟩

/-- C9: over any sequence of sequentially processed webhook deliveries, once
a tracking record exists for an order number it keeps existing and its chat
message reference (timestamp and channel) never changes.  Since the handler
only creates a record when the order number is absent from the map, this
also gives that a record is created at most once per order number. -/
theorem C9_ref_immutable :
    ∀ (evs : List (Order × (String → ChanResp) × Except Unit (Option String)))
      (s : List (String × Track)) (k : String) (t : Track),
      lookupTrack s k = some t →
      ∃ t2, lookupTrack (runWebhooks evs s) k = some t2 ∧
        t2.ts = t.ts ∧ t2.channel = t.channel := by
  intro evs
  induction evs with
  | nil =>
    intro s k t h
    exact ⟨t, h, rfl, rfl⟩
  | cons e rest ih =>
    intro s k t h
    simp only [runWebhooks]
    obtain ⟨t2, h2, hts, hch⟩ := step_preserves_ref s e.1 e.2.1 e.2.2 k t h
    obtain ⟨t3, h3, hts3, hch3⟩ := ih _ k t2 h2
    exact ⟨t3, h3, hts3.trans hts, hch3.trans hch⟩

/-- C9 witness: the invariant applied to a concrete run. -/
theorem C9_ref_immutable_witness :
    ∃ t2, lookupTrack (runWebhooks
        [(⟨some "12", some "paid", none, none⟩, histNone, Except.ok none)]
        [("12", ⟨"1.0", "C0A02M2VCTB", none, none, none⟩)]) "12" = some t2 ∧
      t2.ts = "1.0" ∧ t2.channel = "C0A02M2VCTB" :=
  C9_ref_immutable [(⟨some "12", some "paid", none, none⟩, histNone, Except.ok none)]
    [("12", ⟨"1.0", "C0A02M2VCTB", none, none, none⟩)] "12"
    ⟨"1.0", "C0A02M2VCTB", none, none, none⟩ rfl

/-- C10 (implicit): the change detection of the stock dimension is
case-sensitive string inequality while the stock reaction mapping is
case-insensitive, so a fetched stock value that differs from the stored one
only in letter case (both lowercasing to the phrase stock available) is
treated as a change: the package reaction is dispatched again and the stored
value is overwritten with the new spelling. -/
theorem C10_stock_case_redispatch :
    ∀ (s : List (String × Track)) (o : Order) (hist : String → ChanResp)
      (track : Track) (u v : String),
      lookupTrack s (extract_order_number o) = some track →
      extract_order_number o ≠ "" →
      track.stock = some u →
      pyLower u = "stock available" →
      pyLower v = "stock available" →
      v ≠ u →
      (⟨track.channel, track.ts, "package"⟩ : Reaction)
          ∈ (shopify_webhook s o hist (Except.ok (some v))).reactions ∧
      ∃ t2, lookupTrack (shopify_webhook s o hist (Except.ok (some v))).tracking
          (extract_order_number o) = some t2 ∧ t2.stock = some v := by
  intro s o hist track u v hl he hst hu hv hne
  have h1 : shopify_webhook s o hist (Except.ok (some v))
      = processTrack s (extract_order_number o) o (Except.ok (some v)) track false := by
    simp [shopify_webhook, he, hl]
  have hvne : v ≠ "" := by
    intro h0
    rw [h0] at hv
    exact absurd hv (by decide)
  have hdim : dimStep (some v) track.stock (fun w => stock_reaction (some w))
      track.channel track.ts = (some v, [⟨track.channel, track.ts, "package"⟩]) := by
    rw [hst]
    simp only [dimStep]
    rw [if_pos ⟨hvne, fun hh => (Ne.symm hne) (Option.some_inj.mp hh)⟩]
    have hsr : stock_reaction (some v) = some "package" := by
      simp [stock_reaction, hvne, hv]
    rw [hsr]
  rw [h1]
  constructor
  · simp only [processTrack, updTrack, hdim]
    simp
  · refine ⟨(updTrack o (Except.ok (some v)) track).1, ?_, ?_⟩
    · simp only [processTrack]
      exact lookupTrack_setTrack_self _ _ _
    · simp only [updTrack, hdim]

/-- C10 witness: a stored lowercase stock phrase followed by a fetched
capitalized spelling dispatches the package reaction again. -/
theorem C10_stock_case_redispatch_witness :
    (⟨"C0A02M2VCTB", "1.0", "package"⟩ : Reaction)
        ∈ (shopify_webhook
            [("12", ⟨"1.0", "C0A02M2VCTB", none, none, some "stock available"⟩)]
            ⟨some "12", none, none, none⟩ histNone
            (Except.ok (some "Stock Available"))).reactions ∧
    ∃ t2, lookupTrack (shopify_webhook
            [("12", ⟨"1.0", "C0A02M2VCTB", none, none, some "stock available"⟩)]
            ⟨some "12", none, none, none⟩ histNone
            (Except.ok (some "Stock Available"))).tracking
        (extract_order_number ⟨some "12", none, none, none⟩)
      = some t2 ∧ t2.stock = some "Stock Available" :=
  C10_stock_case_redispatch
    [("12", ⟨"1.0", "C0A02M2VCTB", none, none, some "stock available"⟩)]
    ⟨some "12", none, none, none⟩ histNone
    ⟨"1.0", "C0A02M2VCTB", none, none, some "stock available"⟩
    "stock available" "Stock Available" rfl (by decide) rfl rfl rfl (by decide)

end Imogi
